import Mathlib

/-!
Shallow embedding of the downgrade-crafting engine of the windows-downdate
repository (src/windows_downdate.py and src/windows_downdate/manifest_utils.py).

Strings are modelled as lists of characters (`Str`), file contents as lists of
byte values (`Bytes`).  External collaborators that live outside the embedded
modules (the MSDelta patch engine, the XML parser, `os.path.expandvars`,
`os.path.normpath`, the filesystem) are passed in as explicit parameters.
Stateful Python objects become explicit state records; the lazy-read recursion
between `get_manifest_buffer` and `_is_manifest_diff_type` is modelled with an
explicit fuel parameter because for an empty raw file it does not terminate.
-/

abbrev Str := List Char

abbrev Bytes := List Nat

/-- Python `str.lower()` restricted to the character-wise case mapping. -/
def lower (s : Str) : Str := List.map Char.toLower s

/-- Linear lookup in an association list, modelling Python `dict.get` for the
fixed (finite, literal) dictionaries of the source. -/
def lookupVar : List (Str × Str) → Str → Option Str
  | [], _ => none
  | (k, v) :: rest, key => if k = key then some v else lookupVar rest key

/-- The fixed variable table `Manifest.PACKAGE_VARIABLES` of
manifest_utils.py (lines 21-39), transcribed entry by entry. -/
def PACKAGE_VARIABLES : List (Str × Str) :=
  [ (("runtime.programfilesx86").toList, ("%ProgramFiles(x86)%").toList),
    (("runtime.help").toList, ("%SystemRoot%\\Help").toList),
    (("runtime.bootdrive").toList, ("%SystemDrive%").toList),
    (("runtime.systemroot").toList, ("%SystemRoot%").toList),
    (("runtime.inf").toList, ("%SystemRoot%\\INF").toList),
    (("runtime.commonfiles").toList, ("%CommonProgramFiles%").toList),
    (("runtime.windows").toList, ("%SystemRoot%").toList),
    (("runtime.public").toList, ("%Public%").toList),
    (("runtime.system").toList, ("%SystemRoot%\\System").toList),
    (("runtime.programdata").toList, ("%ProgramData%").toList),
    (("runtime.wbem").toList, ("%SystemRoot%\\System32\\wbem").toList),
    (("runtime.startmenu").toList,
      ("%ProgramData%\\Microsoft\\Windows\\Start Menu").toList),
    (("runtime.fonts").toList, ("%SystemRoot%\\Fonts").toList),
    (("runtime.windir").toList, ("%SystemRoot%").toList),
    (("runtime.system32").toList, ("%SystemRoot%\\System32").toList),
    (("runtime.programfiles").toList, ("%ProgramFiles%").toList),
    (("runtime.drivers").toList, ("%SystemRoot%\\System32\\Drivers").toList) ]

/-- Scanner for the regex `\$\(([^)]+)\)` of
`Manifest.expand_manifest_path_variables` (line 97): from a position just after
`$(`, find the first `)` and split the string there.  The returned suffix
carries its length bound so that the scanner below is structurally decreasing. -/
def splitAtCloseAux : (s : Str) → Option (Str × { t : Str // t.length < s.length })
  | [] => none
  | c :: cs =>
    if c = ')' then some ([], ⟨cs, by simp⟩)
    else
      match splitAtCloseAux cs with
      | some (pre, ⟨post, hp⟩) => some (c :: pre, ⟨post, by simp; omega⟩)
      | none => none

/-- One left-to-right pass of `re.sub(r'\$\(([^)]+)\)', replace, str_to_expand)`
with the replacement function of manifest_utils.py lines 99-102: a matched
token whose lowercased name is a key of the table is replaced by the table's
value, any other matched token is reproduced unchanged (the `full_name`
branch), and text that does not participate in a match is copied verbatim.
Replacements are not rescanned, matching `re.sub` semantics. -/
def substTokens (tbl : List (Str × Str)) : Str → Str
  | [] => []
  | c :: cs =>
    if c = '$' then
      match cs with
      | '(' :: rest =>
        match splitAtCloseAux rest with
        | some (namePre, ⟨post, _hpost⟩) =>
          if namePre = [] then c :: substTokens tbl ('(' :: rest)
          else
            match lookupVar tbl (lower namePre) with
            | some v => v ++ substTokens tbl post
            | none => c :: '(' :: (namePre ++ (')' :: substTokens tbl post))
        | none => c :: substTokens tbl ('(' :: rest)
      | other => c :: substTokens tbl other
    else c :: substTokens tbl cs
termination_by s => s.length
decreasing_by
  all_goals simp_all
  all_goals omega

/-- `Manifest.expand_manifest_path_variables` (manifest_utils.py lines 95-105):
the regex substitution over the fixed table followed by
`os.path.expandvars`; the latter is an external collaborator and is passed in
as the function `env`. -/
def expand_manifest_path_variables (env : Str → Str) (s : Str) : Str :=
  env (substTokens PACKAGE_VARIABLES s)

/-- `Manifest.is_file_in_manifest_files` (manifest_utils.py lines 79-83),
as a pure function of the manifest file list it iterates over:
linear scan comparing `manifest_file.lower() == file_to_search.lower()`. -/
def is_file_in_manifest_files : List Str → Str → Bool
  | [], _ => false
  | f :: rest, target =>
    if lower f = lower target then true else is_file_in_manifest_files rest target

/-- One `<file>` element of a parsed manifest document, reduced to the two
attributes read by `get_manifest_files`; an absent attribute makes
`get_element_attribute` raise `XmlElementAttributeNotFound`, modelled as
`none`. -/
structure FileElem where
  destinationPath : Option Str
  name : Option Str
deriving DecidableEq

/-- The loop body of `Manifest.get_manifest_files` (manifest_utils.py lines
65-75): per element, fetch `destinationPath` (skip the element if absent),
expand it, fetch `name` (skip the element if absent), join with a backslash,
apply `os.path.normpath` (external, passed as `np`), and append. -/
def manifest_files_loop (env np : Str → Str) : List FileElem → List Str → List Str
  | [], acc => acc
  | e :: rest, acc =>
    match e.destinationPath with
    | none => manifest_files_loop env np rest acc
    | some dirAttr =>
      match e.name with
      | none => manifest_files_loop env np rest acc
      | some fname =>
        manifest_files_loop env np rest
          (acc ++ [np (expand_manifest_path_variables env dirAttr ++ ('\\' :: fname))])

/-- The file list `Manifest.get_manifest_files` computes from a parsed
document (starting from the empty accumulator of line 63). -/
def manifest_files_of (env np : Str → Str) (elems : List FileElem) : List Str :=
  manifest_files_loop env np elems []

/-- The per-element path contribution: `some` of the expanded, joined,
normalized path when both attributes are present, `none` (skip) otherwise. -/
def fileElemPath (env np : Str → Str) (e : FileElem) : Option Str :=
  match e.destinationPath, e.name with
  | some dirAttr, some fname =>
    some (np (expand_manifest_path_variables env dirAttr ++ ('\\' :: fname)))
  | _, _ => none

/-- The DCM differential-manifest marker `Manifest.DCM_HEADER = b"DCM\x01"`
(manifest_utils.py line 17). -/
def DCM_HEADER : Bytes := [68, 67, 77, 1]

/-- External collaborators of one `Manifest` instance: the raw bytes
`read_file` returns for its manifest path (reads are deterministic within a
run), the MSDelta `apply_delta` engine and the base manifest
(`Manifest.BASE_MANIFEST`), the XML parser `load_xml_from_buffer` (reduced to
the `<file>` elements `find_child_elements_by_match` would return), and the
path collaborators `os.path.expandvars` and `os.path.normpath`. -/
structure ManifestEnv where
  applyDelta : Bytes → Bytes → Bytes
  base : Bytes
  raw : Bytes
  parse : Bytes → List FileElem
  expandEnv : Str → Str
  normpath : Str → Str

/-- The mutable fields of a `Manifest` instance (manifest_utils.py lines
44-46), plus probe counters for the file reads, XML parses and delta
applications performed. -/
structure ManifestMem where
  buf : Option Bytes
  xml : Option (List FileElem)
  files : Option (List Str)
  reads : Nat
  parses : Nat
  deltas : Nat
deriving DecidableEq

/-- The state of a freshly constructed `Manifest` (`__init__` sets the three
cache fields to `None`). -/
def initMem : ManifestMem :=
  { buf := none, xml := none, files := none, reads := 0, parses := 0, deltas := 0 }

/-- Python truthiness test `not self._manifest_buffer`: true for `None` and
for the empty byte string. -/
def bufFalsy : Option Bytes → Bool
  | none => true
  | some b => b.isEmpty

/-- The cached buffer value (only meaningful when the cache is not falsy). -/
def bufVal : Option Bytes → Bytes
  | none => []
  | some b => b

/-- Python truthiness test `not self._manifest_files`: true for `None` and
for the empty list. -/
def filesFalsy : Option (List Str) → Bool
  | none => true
  | some l => l.isEmpty

/-- The cached file-list value (only meaningful when the cache is not falsy). -/
def filesVal : Option (List Str) → List Str
  | none => []
  | some l => l

/-- `Manifest.get_manifest_buffer` (manifest_utils.py lines 54-59) together
with its callees `_is_manifest_diff_type` (lines 91-93) and
`_decompress_manifest` (lines 85-89).  Both callees re-enter
`get_manifest_buffer`, so the recursion is modelled with explicit fuel; `none`
means the fuel ran out, which only happens on the genuinely non-terminating
path (empty raw bytes keep the cache falsy forever).  Returns the produced
buffer and the updated instance state. -/
def get_manifest_buffer (E : ManifestEnv) : Nat → ManifestMem → Option (Bytes × ManifestMem)
  | 0, _ => none
  | fuel + 1, m =>
    if bufFalsy m.buf then
      match get_manifest_buffer E fuel
          { m with buf := some E.raw, reads := m.reads + 1 } with
      | none => none
      | some (b, m2) =>
        if b.take 4 = DCM_HEADER then
          match get_manifest_buffer E fuel m2 with
          | none => none
          | some (b2, m3) =>
            some (E.applyDelta E.base (b2.drop 4),
              { m3 with buf := some (E.applyDelta E.base (b2.drop 4)),
                        deltas := m3.deltas + 1 })
        else some (b, m2)
    else some (bufVal m.buf, m)

/-- The buffer `get_manifest_buffer` is expected to produce from non-empty raw
bytes: the delta patch of the stripped buffer against the base manifest when
the DCM marker is present, the raw bytes unchanged otherwise. -/
def decode_spec (E : ManifestEnv) : Bytes :=
  if E.raw.take 4 = DCM_HEADER then E.applyDelta E.base (E.raw.drop 4) else E.raw

/-- Number of delta applications a fresh successful buffer decode performs. -/
def delta_count (E : ManifestEnv) : Nat :=
  if E.raw.take 4 = DCM_HEADER then 1 else 0

/-- Instance state after one fresh successful `get_manifest_buffer` run. -/
def decoded_mem (E : ManifestEnv) : ManifestMem :=
  { buf := some (decode_spec E), xml := none, files := none,
    reads := 1, parses := 0, deltas := delta_count E }

/-- `Manifest.get_manifest_xml` (manifest_utils.py lines 48-52).  The cached
`_manifest_xml` is an `ElementTree` object, which is always truthy in Python,
so the cache test `not self._manifest_xml` is `None`-ness. -/
def get_manifest_xml (E : ManifestEnv) (fuel : Nat) (m : ManifestMem) :
    Option (List FileElem × ManifestMem) :=
  match m.xml with
  | some d => some (d, m)
  | none =>
    match get_manifest_buffer E fuel m with
    | none => none
    | some (b, m1) =>
      some (E.parse b, { m1 with xml := some (E.parse b), parses := m1.parses + 1 })

/-- Instance state after one fresh successful `get_manifest_xml` run. -/
def xml_mem (E : ManifestEnv) : ManifestMem :=
  { decoded_mem E with xml := some (E.parse (decode_spec E)), parses := 1 }

/-- `Manifest.get_manifest_files` (manifest_utils.py lines 61-77): when the
`_manifest_files` cache is falsy (`None` or the empty list), recompute the
list from the (possibly cached) XML document; otherwise return the cache. -/
def get_manifest_files (E : ManifestEnv) (fuel : Nat) (m : ManifestMem) :
    Option (List Str × ManifestMem) :=
  if filesFalsy m.files then
    match get_manifest_xml E fuel m with
    | none => none
    | some (d, m1) =>
      some (manifest_files_of E.expandEnv E.normpath d,
        { m1 with files := some (manifest_files_of E.expandEnv E.normpath d) })
  else some (filesVal m.files, m)

/-- The file list a fresh `Manifest` instance computes. -/
def manifest_file_list (E : ManifestEnv) : List Str :=
  manifest_files_of E.expandEnv E.normpath (E.parse (decode_spec E))

/-- Instance state after one fresh successful `get_manifest_files` run. -/
def files_mem (E : ManifestEnv) : ManifestMem :=
  { xml_mem E with files := some (manifest_file_list E) }

/-- A requested file replacement (`update_file.UpdateFile`, imported by
windows_downdate.py line 9; constructed at line 81).  The class itself is not
under src/.  Modelled from the spec: `source`, `destination`,
`needsResolution` (named `should_retrieve_oldest` at the construction site)
and the reserved `persisted` flag (`is_oldest_retrieved`, passed as `False`). -/
structure UpdateFile where
  source : Str
  destination : Str
  should_retrieve_oldest : Bool
  is_oldest_retrieved : Bool
deriving DecidableEq

/-- One replacement-operation entry of the downgrade queue document.
Modelled from the spec: `UpdateFile.to_hardlink_dict` is not under src/; per
the spec each entry names the pair's source and destination absolute paths. -/
structure HardlinkEntry where
  source : Str
  destination : Str
deriving DecidableEq

/-- Modelled from the spec: `UpdateFile.to_hardlink_dict` (update_file.py,
not under src/) builds the entry carrying the pair's two paths. -/
def to_hardlink_dict (uf : UpdateFile) : HardlinkEntry :=
  { source := uf.source, destination := uf.destination }

/-- Modelled from the spec: `filesystem_utils.is_file_contents_equal`
(not under src/) is the collaborator `filesByteEqual(pathA, pathB)`: it reads
both files' full byte content from the filesystem `fs` and compares. -/
def is_file_contents_equal (fs : Str → Bytes) (a b : Str) : Bool :=
  decide (fs a = fs b)

/-- `craft_downgrade_xml` (windows_downdate.py lines 87-102), with the queue
document reduced to the ordered list of entries appended to the post-reboot
POQ element (`get_empty_pending_xml` and the XML plumbing are not under src/;
per the spec the output is the ordered list of replacement-operation
entries in the single post-restart bucket).  A pair whose source and
destination contents are equal is skipped (`continue`); otherwise its
hardlink entry is appended. -/
def craft_downgrade_xml (fs : Str → Bytes) : List UpdateFile → List HardlinkEntry
  | [] => []
  | uf :: rest =>
    if is_file_contents_equal fs uf.source uf.destination then
      craft_downgrade_xml fs rest
    else to_hardlink_dict uf :: craft_downgrade_xml fs rest

/-- One `<UpdateFile>` element of Config.xml, reduced to the two attributes
`parse_config_xml` reads (both present; absence would be an
`xml_utils.get_element_attribute` failure outside this claim set). -/
structure ConfigEntry where
  source : Str
  destination : Str
deriving DecidableEq

/-- The error outcomes of the embedded flows. -/
inductive RunError where
  | attributeError
  | missingConfig
  | missingCustomPending
  | fileNotFound (p : Str)
  | unresolvableSource
  | notImplemented
deriving DecidableEq

/-- `parse_config_xml` (windows_downdate.py lines 59-84) over the already
extracted `<UpdateFile>` elements, with filesystem existence `ex`.  For each
entry in order: if the destination does not exist, raise `FileNotFoundError`
(abort, nothing returned); otherwise build the `UpdateFile`, marking it for
oldest-version retrieval exactly when the source path does not exist. -/
def parse_config_xml (ex : Str → Bool) : List ConfigEntry → Except RunError (List UpdateFile)
  | [] => .ok []
  | e :: rest =>
    if ex e.destination then
      match parse_config_xml ex rest with
      | .ok ufs =>
        .ok ({ source := e.source, destination := e.destination,
               should_retrieve_oldest := !ex e.source,
               is_oldest_retrieved := false } :: ufs)
      | .error err => .error err
    else .error (.fileNotFound e.destination)

/-- One archived component: its manifest's (already decoded and extracted)
file list, and the archived file path the resolver would hand back for it.
The enumeration order of the archive is the order of the list. -/
structure Component where
  manifest_files : List Str
  oldest_file_path : Str
deriving DecidableEq

/-- Modelled from the spec: the OldestVersionResolver
(`component_store_utils.retrieve_oldest_files_for_update_files` is not under
src/).  Enumerate the archive in its natural order, ask each component's
manifest `is_file_in_manifest_files` (src code, manifest_utils.py lines
79-83) for the destination path, and return the first match's associated
path; if no component owns the path, fail with `UnresolvableSourceError`. -/
def resolveSource (archive : List Component) (dest : Str) : Except RunError Str :=
  match archive with
  | [] => .error .unresolvableSource
  | c :: rest =>
    if is_file_in_manifest_files c.manifest_files dest then .ok c.oldest_file_path
    else resolveSource rest dest

/-- Modelled from the spec: resolution of one `UpdateFile` — only files whose
`needsResolution` flag is set are resolved, in place. -/
def resolve_update_file (archive : List Component) (uf : UpdateFile) :
    Except RunError UpdateFile :=
  if uf.should_retrieve_oldest then
    match resolveSource archive uf.destination with
    | .ok p => .ok { uf with source := p }
    | .error e => .error e
  else .ok uf

/-- Modelled from the spec: `retrieve_oldest_files_for_update_files`
(windows_downdate.py line 6 import; body not under src/) resolves every
update file in order, aborting on the first failure. -/
def retrieve_oldest_files_for_update_files (archive : List Component) :
    List UpdateFile → Except RunError (List UpdateFile)
  | [] => .ok []
  | uf :: rest =>
    match resolve_update_file archive uf with
    | .error e => .error e
    | .ok uf2 =>
      match retrieve_oldest_files_for_update_files archive rest with
      | .error e => .error e
      | .ok l => .ok (uf2 :: l)

/-- The resolution-then-craft portion of the config flow (windows_downdate.py
lines 115-116): the output document exists only if every resolution
succeeded. -/
def run_config_flow (archive : List Component) (fs : Str → Bytes)
    (ufs : List UpdateFile) : Except RunError (List HardlinkEntry) :=
  match retrieve_oldest_files_for_update_files archive ufs with
  | .error e => .error e
  | .ok l => .ok (craft_downgrade_xml fs l)

/-- `DOWNGRADE_XML_PATH` (windows_downdate.py line 18). -/
def DOWNGRADE_XML_PATH : Str := ("resources\\Downgrade.xml").toList

/-- The argparse namespace produced by `parse_args` (windows_downdate.py
lines 24-48); the two mutually exclusive input arguments are optional. -/
structure Args where
  config_xml : Option Str
  custom_pending_xml : Option Str
  force_restart : Bool
  restart_timeout : Nat
  elevate : Bool
  invisible : Bool
  persistent : Bool
  irreversible : Bool
deriving DecidableEq

/-- The attribute names (argparse dests) `parse_args` defines on the
namespace (windows_downdate.py lines 24-48). -/
def argparse_dests : List Str :=
  [ ("config_xml").toList, ("custom_pending_xml").toList,
    ("force_restart").toList, ("restart_timeout").toList,
    ("elevate").toList, ("invisible").toList,
    ("persistent").toList, ("irreversible").toList ]

/-- `main` (windows_downdate.py lines 105-144; the name `main` itself is
reserved by Lean).  Line 109 evaluates `args.config_file`;
`argparse.Namespace` raises `AttributeError` for an attribute that was never
defined, and `parse_args` defines exactly the dests in `argparse_dests`, so
the lookup is decided against that list.  No `config_file` dest exists, so
every run raises at line 109, and lines 110-144 — the config/custom branches,
the downgrade-document write at line 117, the feature-flag
`NotImplementedError` checks at lines 126-139 and `pend_update` — are dead
code (the then-branch below is unreachable and carries no behaviour).  The
first component of the result is the list of (path, document) writes the run
performed before finishing or raising — always empty here; the second is the
error it raised, if any.  The collaborators stay as parameters so the
immediate abort can be stated uniformly in them. -/
def main_as_written (_args : Args) (_ex : Str → Bool)
    (_read_config : Str → List ConfigEntry) (_archive : List Component)
    (_fs : Str → Bytes) : List (Str × List HardlinkEntry) × Option RunError :=
  if ("config_file").toList ∈ argparse_dests then ([], none)
  else ([], some .attributeError)

/-- Concatenation of string pieces (specification-side helper for the token
grammar of `expand_manifest_path_variables`). -/
def concatAll : List Str → Str
  | [] => []
  | s :: rest => s ++ concatAll rest

/-- A segment of an input string under the token grammar of the regex
`\$\(([^)]+)\)`: either literal text or one `$(name)` token. -/
inductive PathSeg where
  | lit : Str → PathSeg
  | tok : Str → PathSeg
deriving DecidableEq

/-- The concrete text a segment denotes. -/
def PathSeg.render : PathSeg → Str
  | .lit s => s
  | .tok n => '$' :: '(' :: (n ++ [')'])

/-- Well-formedness of a segment: literal text triggers no match (contains no
dollar sign), a token name is non-empty and closes at its own parenthesis. -/
def PathSeg.wfb : PathSeg → Bool
  | .lit s => decide ('$' ∉ s)
  | .tok n => decide (n ≠ []) && decide (')' ∉ n)

/-- What the substitution pass of `expand_manifest_path_variables` produces
for one segment: literal text is copied; a token whose lowercased name is a
key of `PACKAGE_VARIABLES` becomes the table's value; any other token is
reproduced unchanged. -/
def PathSeg.substResult : PathSeg → Str
  | .lit s => s
  | .tok n =>
    match lookupVar PACKAGE_VARIABLES (lower n) with
    | some v => v
    | none => PathSeg.render (.tok n)

/-- A concrete manifest environment for evaluating the stateful model: the
delta engine returns the patch unchanged, `load_xml_from_buffer` yields the
given elements, and the path collaborators are the identity. -/
def testEnv (raw : Bytes) (elems : List FileElem) : ManifestEnv :=
  { applyDelta := fun _ p => p, base := [], raw := raw,
    parse := fun _ => elems, expandEnv := id, normpath := id }

theorem splitAtCloseAux_append (n t : Str) (hcl : ')' ∉ n) :
    splitAtCloseAux (n ++ ')' :: t)
      = some (n, ⟨t, by simp; omega⟩) := by
  induction n with
  | nil => simp [splitAtCloseAux]
  | cons c n ih =>
    have hc : c ≠ ')' := by
      intro h
      exact hcl (by simp [h])
    have hcl' : ')' ∉ n := fun h => hcl (List.mem_cons_of_mem _ h)
    simp only [List.cons_append, splitAtCloseAux, hc, if_false, List.append_eq]
    rw [ih hcl']

theorem substTokens_nil (tbl : List (Str × Str)) : substTokens tbl [] = [] := by
  rw [substTokens.eq_def]

theorem substTokens_cons_ne (tbl : List (Str × Str)) (c : Char) (cs : Str)
    (hc : c ≠ '$') : substTokens tbl (c :: cs) = c :: substTokens tbl cs := by
  rw [substTokens.eq_def]
  simp [hc]

theorem substTokens_lit (tbl : List (Str × Str)) (s t : Str) (hs : '$' ∉ s) :
    substTokens tbl (s ++ t) = s ++ substTokens tbl t := by
  induction s with
  | nil => simp
  | cons c s ih =>
    have hc : c ≠ '$' := by
      intro h
      exact hs (by simp [h])
    have hs' : '$' ∉ s := fun h => hs (List.mem_cons_of_mem _ h)
    rw [List.cons_append, substTokens_cons_ne tbl c (s ++ t) hc, ih hs']
    rfl

theorem substTokens_tok_found (tbl : List (Str × Str)) (n t v : Str)
    (hn : n ≠ []) (hcl : ')' ∉ n) (hv : lookupVar tbl (lower n) = some v) :
    substTokens tbl ('$' :: '(' :: (n ++ ')' :: t)) = v ++ substTokens tbl t := by
  rw [substTokens.eq_def]
  simp [splitAtCloseAux_append n t hcl, hn, hv]

theorem substTokens_tok_notfound (tbl : List (Str × Str)) (n t : Str)
    (hn : n ≠ []) (hcl : ')' ∉ n) (hv : lookupVar tbl (lower n) = none) :
    substTokens tbl ('$' :: '(' :: (n ++ ')' :: t))
      = '$' :: '(' :: (n ++ (')' :: substTokens tbl t)) := by
  rw [substTokens.eq_def]
  simp [splitAtCloseAux_append n t hcl, hn, hv]

theorem substTokens_segs (segs : List PathSeg)
    (h : ∀ g ∈ segs, PathSeg.wfb g = true) :
    substTokens PACKAGE_VARIABLES (concatAll (List.map PathSeg.render segs))
      = concatAll (List.map PathSeg.substResult segs) := by
  induction segs with
  | nil => simp [concatAll, substTokens_nil]
  | cons g rest ih =>
    have hg : PathSeg.wfb g = true := h g (List.mem_cons_self g rest)
    have hrest : ∀ g' ∈ rest, PathSeg.wfb g' = true :=
      fun g' hm => h g' (List.mem_cons_of_mem _ hm)
    cases g with
    | lit s =>
      have hs : '$' ∉ s := by
        have := hg
        simp [PathSeg.wfb] at this
        exact this
      simp only [List.map_cons, concatAll, PathSeg.render, PathSeg.substResult]
      rw [substTokens_lit _ s _ hs, ih hrest]
    | tok n =>
      have hn : n ≠ [] ∧ ')' ∉ n := by
        have := hg
        simp [PathSeg.wfb] at this
        exact this
      simp only [List.map_cons, concatAll, PathSeg.render, PathSeg.substResult]
      have hshape : ('$' :: '(' :: (n ++ [')'])) ++ concatAll (List.map PathSeg.render rest)
          = '$' :: '(' :: (n ++ ')' :: concatAll (List.map PathSeg.render rest)) := by
        simp
      rw [hshape]
      cases hv : lookupVar PACKAGE_VARIABLES (lower n) with
      | some v =>
        rw [substTokens_tok_found _ n _ v hn.1 hn.2 hv, ih hrest]
      | none =>
        rw [substTokens_tok_notfound _ n _ hn.1 hn.2 hv, ih hrest]
        simp [PathSeg.render]

theorem gmb_succ (E : ManifestEnv) (fuel : Nat) (m : ManifestMem) :
    get_manifest_buffer E (fuel + 1) m
      = (if bufFalsy m.buf then
          match get_manifest_buffer E fuel
              { m with buf := some E.raw, reads := m.reads + 1 } with
          | none => none
          | some (b, m2) =>
            if b.take 4 = DCM_HEADER then
              match get_manifest_buffer E fuel m2 with
              | none => none
              | some (b2, m3) =>
                some (E.applyDelta E.base (b2.drop 4),
                  { m3 with buf := some (E.applyDelta E.base (b2.drop 4)),
                            deltas := m3.deltas + 1 })
            else some (b, m2)
        else some (bufVal m.buf, m)) := rfl

theorem gmb_cached (E : ManifestEnv) (k : Nat) (m : ManifestMem) (b : Bytes)
    (hm : m.buf = some b) (hb : b ≠ []) :
    get_manifest_buffer E (k + 1) m = some (b, m) := by
  have hne : b.isEmpty = false := by
    cases b with
    | nil => exact absurd rfl hb
    | cons x xs => rfl
  simp [get_manifest_buffer, hm, bufFalsy, bufVal, hne]

theorem gmb_fresh (E : ManifestEnv) (k : Nat) (m : ManifestMem)
    (hraw : E.raw ≠ []) (hm : bufFalsy m.buf = true) :
    get_manifest_buffer E (k + 2) m
      = some (decode_spec E,
          { m with buf := some (decode_spec E), reads := m.reads + 1,
                   deltas := m.deltas + delta_count E }) := by
  have h1 : get_manifest_buffer E (k + 1)
      { m with buf := some E.raw, reads := m.reads + 1 }
      = some (E.raw, { m with buf := some E.raw, reads := m.reads + 1 }) :=
    gmb_cached E k _ E.raw rfl hraw
  rw [show get_manifest_buffer E (k + 2) m
        = get_manifest_buffer E (k + 1 + 1) m from rfl, gmb_succ]
  by_cases hdcm : E.raw.take 4 = DCM_HEADER <;>
    simp [hm, h1, hdcm, decode_spec, delta_count]

theorem gmb_empty (E : ManifestEnv) (hraw : E.raw = []) :
    ∀ (fuel : Nat) (m : ManifestMem), bufFalsy m.buf = true →
      get_manifest_buffer E fuel m = none := by
  intro fuel
  induction fuel with
  | zero =>
    intro m _
    rfl
  | succ k ih =>
    intro m hm
    have hin : get_manifest_buffer E k
        { m with buf := some E.raw, reads := m.reads + 1 } = none :=
      ih _ (by simp [bufFalsy, hraw])
    simp [get_manifest_buffer, hm, hin]

theorem gmx_cached (E : ManifestEnv) (fuel : Nat) (m : ManifestMem)
    (d : List FileElem) (hm : m.xml = some d) :
    get_manifest_xml E fuel m = some (d, m) := by
  simp [get_manifest_xml, hm]

theorem gmx_fresh (E : ManifestEnv) (k : Nat) (hraw : E.raw ≠ []) :
    get_manifest_xml E (k + 2) initMem
      = some (E.parse (decode_spec E), xml_mem E) := by
  have hb := gmb_fresh E k initMem hraw (by rfl)
  simp [get_manifest_xml, initMem] at hb ⊢
  simp [hb, xml_mem, decoded_mem, initMem]

theorem gmx_repeat (E : ManifestEnv) (fuel : Nat) :
    get_manifest_xml E fuel (xml_mem E)
      = some (E.parse (decode_spec E), xml_mem E) :=
  gmx_cached E fuel _ _ rfl

theorem gmf_fresh (E : ManifestEnv) (k : Nat) (hraw : E.raw ≠ []) :
    get_manifest_files E (k + 2) initMem
      = some (manifest_file_list E, files_mem E) := by
  simp only [get_manifest_files, show filesFalsy initMem.files = true from rfl,
    if_true, gmx_fresh E k hraw]
  rfl

theorem gmf_repeat (E : ManifestEnv) (fuel : Nat) :
    get_manifest_files E fuel (files_mem E)
      = some (manifest_file_list E, files_mem E) := by
  have hx : (files_mem E).xml = some (E.parse (decode_spec E)) := rfl
  have hfl : (files_mem E).files = some (manifest_file_list E) := rfl
  by_cases hl : (manifest_file_list E).isEmpty = true
  · have hff : filesFalsy (files_mem E).files = true := by
      rw [hfl]
      simpa [filesFalsy] using hl
    simp only [get_manifest_files, hff, if_true,
      gmx_cached E fuel (files_mem E) (E.parse (decode_spec E)) hx]
    rfl
  · have hff : filesFalsy (files_mem E).files = false := by
      rw [hfl]
      simpa [filesFalsy] using hl
    simp only [get_manifest_files, hff, Bool.false_eq_true, if_false]
    rfl

theorem gmf_empty (E : ManifestEnv) (hraw : E.raw = []) (fuel : Nat) :
    get_manifest_files E fuel initMem = none := by
  have hb : get_manifest_buffer E fuel initMem = none :=
    gmb_empty E hraw fuel initMem rfl
  have hx : get_manifest_xml E fuel initMem = none := by
    simp only [get_manifest_xml, show initMem.xml = none from rfl, hb]
  simp [get_manifest_files, show filesFalsy initMem.files = true from rfl, hx]

theorem manifest_files_loop_eq (env np : Str → Str) (elems : List FileElem)
    (acc : List Str) :
    manifest_files_loop env np elems acc
      = acc ++ List.filterMap (fileElemPath env np) elems := by
  induction elems generalizing acc with
  | nil => simp [manifest_files_loop]
  | cons e rest ih =>
    cases hd : e.destinationPath with
    | none => simp [manifest_files_loop, hd, fileElemPath, ih]
    | some dirAttr =>
      cases hn : e.name with
      | none => simp [manifest_files_loop, hd, hn, fileElemPath, ih]
      | some fname => simp [manifest_files_loop, hd, hn, fileElemPath, ih]

theorem gmb_run (E : ManifestEnv) (fuel : Nat) (hraw : E.raw ≠ [])
    (hf : 2 ≤ fuel) :
    get_manifest_buffer E fuel initMem = some (decode_spec E, decoded_mem E) := by
  obtain ⟨k, rfl⟩ : ∃ k, fuel = k + 2 := by
    obtain ⟨k, hk⟩ := Nat.exists_eq_add_of_le hf
    exact ⟨k, by omega⟩
  rw [gmb_fresh E k initMem hraw rfl]
  simp [initMem, decoded_mem]

/-- Claim C1: for resolved update-file pairs, the queue document built by
`craft_downgrade_xml` is exactly the input list restricted to the pairs whose
two files' byte contents differ, in input order, each contributing the single
replacement-operation entry naming that pair's source and destination
paths; byte-identical pairs contribute nothing. -/
theorem C1_craft_downgrade_xml_filters_identical_pairs
    (fs : Str → Bytes) (ufs : List UpdateFile) :
    craft_downgrade_xml fs ufs
      = List.map to_hardlink_dict
          (List.filter (fun uf => decide (¬ fs uf.source = fs uf.destination)) ufs) := by
  induction ufs with
  | nil => rfl
  | cons uf rest ih =>
    by_cases h : fs uf.source = fs uf.destination
    · simp [craft_downgrade_xml, is_file_contents_equal, h, ih]
    · simp [craft_downgrade_xml, is_file_contents_equal, h, ih]

/-- Claim C2 (amended: the raw manifest buffer must be non-empty, since on an
empty raw file the lazy-read recursion of `get_manifest_buffer` does not
terminate — see the counterexample): decoding a non-empty raw buffer inspects
the fixed 4-byte DCM marker; with the marker the result is the delta patch of
the buffer with its first 4 bytes stripped applied against the base manifest,
without it the result is the raw buffer unchanged. -/
theorem C2_get_manifest_buffer_decodes_by_marker (E : ManifestEnv) (fuel : Nat)
    (hraw : E.raw ≠ []) (hf : 2 ≤ fuel) :
    get_manifest_buffer E fuel initMem = some (decode_spec E, decoded_mem E) :=
  gmb_run E fuel hraw hf

/-- Witness for C2: a concrete non-DCM buffer is returned unchanged. -/
theorem C2_witness :
    ([7, 7] : Bytes) ≠ [] ∧ 2 ≤ 2
    ∧ get_manifest_buffer (testEnv [7, 7] []) 2 initMem
        = some (decode_spec (testEnv [7, 7] []), decoded_mem (testEnv [7, 7] [])) :=
  ⟨by decide, by decide,
    C2_get_manifest_buffer_decodes_by_marker (testEnv [7, 7] []) 2 (by decide) (by decide)⟩

/-- Counterexample for C2 as stated: for the empty raw buffer (which does not
start with the DCM marker) the claim promises the raw buffer back unchanged,
but `get_manifest_buffer` never returns at any recursion depth. -/
theorem C2_counterexample :
    ¬ ∃ (fuel : Nat) (r : Bytes × ManifestMem),
        get_manifest_buffer (testEnv [] []) fuel initMem = some r := by
  rintro ⟨fuel, r, h⟩
  rw [gmb_empty (testEnv [] []) rfl fuel initMem rfl] at h
  exact Option.noConfusion h

/-- Claim C10: for a manifest whose raw bytes are non-empty,
`get_manifest_buffer` terminates (any recursion depth of at least 2 yields
the same decoded result) and reads the raw file exactly once; the guarantee
is conditional on non-emptiness — with empty raw bytes the lazy-read
recursion yields no result at any depth. -/
theorem C10_get_manifest_buffer_termination :
    (∀ (E : ManifestEnv) (fuel : Nat), E.raw ≠ [] → 2 ≤ fuel →
      get_manifest_buffer E fuel initMem = some (decode_spec E, decoded_mem E)
      ∧ (decoded_mem E).reads = 1)
    ∧ (∀ (E : ManifestEnv) (fuel : Nat), E.raw = [] →
      get_manifest_buffer E fuel initMem = none) :=
  ⟨fun E fuel hraw hf => ⟨gmb_run E fuel hraw hf, rfl⟩,
   fun E fuel hraw => gmb_empty E hraw fuel initMem rfl⟩

/-- Witness for C10: a concrete DCM-marked buffer decodes with one read. -/
theorem C10_witness :
    ([68, 67, 77, 1, 5] : Bytes) ≠ [] ∧ 2 ≤ 2
    ∧ (get_manifest_buffer (testEnv [68, 67, 77, 1, 5] []) 2 initMem
        = some (decode_spec (testEnv [68, 67, 77, 1, 5] []),
                decoded_mem (testEnv [68, 67, 77, 1, 5] []))
      ∧ (decoded_mem (testEnv [68, 67, 77, 1, 5] [])).reads = 1) :=
  ⟨by decide, by decide,
    C10_get_manifest_buffer_termination.1 (testEnv [68, 67, 77, 1, 5] []) 2
      (by decide) (by decide)⟩

/-- Claim C4 (amended: the raw manifest bytes must be non-empty, since with
empty raw bytes neither accessor ever returns — see the counterexample):
`get_manifest_xml` and `get_manifest_files` are idempotent caches — a second
call returns the identical result and leaves the instance state unchanged,
and across both calls the underlying read/decode/parse work is performed at
most once (one file read, one XML parse, at most one delta application).
This includes a manifest whose file list is empty: the second
`get_manifest_files` call then re-walks the cached document (its falsy list
cache misses) but performs no read, decode or parse work. -/
theorem C4_manifest_accessors_idempotent_caches (E : ManifestEnv) (fuel : Nat)
    (hraw : E.raw ≠ []) (hf : 2 ≤ fuel) :
    get_manifest_xml E fuel initMem = some (E.parse (decode_spec E), xml_mem E)
    ∧ get_manifest_xml E fuel (xml_mem E) = some (E.parse (decode_spec E), xml_mem E)
    ∧ get_manifest_files E fuel initMem = some (manifest_file_list E, files_mem E)
    ∧ get_manifest_files E fuel (files_mem E)
        = some (manifest_file_list E, files_mem E)
    ∧ (files_mem E).reads = 1 ∧ (files_mem E).parses = 1
    ∧ (files_mem E).deltas = delta_count E ∧ delta_count E ≤ 1 := by
  obtain ⟨k, rfl⟩ : ∃ k, fuel = k + 2 := by
    obtain ⟨k, hk⟩ := Nat.exists_eq_add_of_le hf
    exact ⟨k, by omega⟩
  refine ⟨gmx_fresh E k hraw, gmx_repeat E (k + 2), gmf_fresh E k hraw,
    gmf_repeat E (k + 2), rfl, rfl, rfl, ?_⟩
  by_cases h : E.raw.take 4 = DCM_HEADER <;> simp [delta_count, h]

/-- Witness for C4, at a manifest whose decoded document declares no files at
all (the file list is empty, the interesting cache case). -/
theorem C4_witness :
    ([9] : Bytes) ≠ [] ∧ 2 ≤ 2
    ∧ (get_manifest_xml (testEnv [9] []) 2 initMem
        = some ((testEnv [9] []).parse (decode_spec (testEnv [9] [])),
                xml_mem (testEnv [9] []))
      ∧ get_manifest_xml (testEnv [9] []) 2 (xml_mem (testEnv [9] []))
        = some ((testEnv [9] []).parse (decode_spec (testEnv [9] [])),
                xml_mem (testEnv [9] []))
      ∧ get_manifest_files (testEnv [9] []) 2 initMem
        = some (manifest_file_list (testEnv [9] []), files_mem (testEnv [9] []))
      ∧ get_manifest_files (testEnv [9] []) 2 (files_mem (testEnv [9] []))
        = some (manifest_file_list (testEnv [9] []), files_mem (testEnv [9] []))
      ∧ (files_mem (testEnv [9] [])).reads = 1
      ∧ (files_mem (testEnv [9] [])).parses = 1
      ∧ (files_mem (testEnv [9] [])).deltas = delta_count (testEnv [9] [])
      ∧ delta_count (testEnv [9] []) ≤ 1) :=
  ⟨by decide, by decide,
    C4_manifest_accessors_idempotent_caches (testEnv [9] []) 2 (by decide) (by decide)⟩

/-- Counterexample for C4 as stated: with empty raw manifest bytes (one
possible manifest content) the file-list accessor never returns at any
recursion depth, so "calling it twice returns the identical result" fails. -/
theorem C4_counterexample :
    ¬ ∃ (fuel : Nat) (r : List Str × ManifestMem),
        get_manifest_files (testEnv [] []) fuel initMem = some r := by
  rintro ⟨fuel, r, h⟩
  rw [gmf_empty (testEnv [] []) rfl fuel] at h
  exact Option.noConfusion h

/-- Claim C5: `expand_manifest_path_variables` substitutes each `$(name)`
token whose lowercased name is a key of the fixed table `PACKAGE_VARIABLES`
with the table's value, reproduces each unknown token unchanged, copies all
non-token text verbatim, and afterwards applies the OS environment expansion
`env` to the substituted string; it is a total function, so no input raises. -/
theorem C5_expand_manifest_path_variables_token_semantics
    (env : Str → Str) (segs : List PathSeg)
    (h : ∀ g ∈ segs, PathSeg.wfb g = true) :
    expand_manifest_path_variables env (concatAll (List.map PathSeg.render segs))
      = env (concatAll (List.map PathSeg.substResult segs)) :=
  congrArg env (substTokens_segs segs h)

/-- Witness for C5: a known token, literal text, and an unknown token. -/
theorem C5_witness :
    (∀ g ∈ [PathSeg.tok (("runtime.system32").toList),
            PathSeg.lit (("\\foo.dll").toList),
            PathSeg.tok (("bogus.var").toList)], PathSeg.wfb g = true)
    ∧ expand_manifest_path_variables id
        (concatAll (List.map PathSeg.render
          [PathSeg.tok (("runtime.system32").toList),
           PathSeg.lit (("\\foo.dll").toList),
           PathSeg.tok (("bogus.var").toList)]))
      = id (concatAll (List.map PathSeg.substResult
          [PathSeg.tok (("runtime.system32").toList),
           PathSeg.lit (("\\foo.dll").toList),
           PathSeg.tok (("bogus.var").toList)])) :=
  ⟨by decide,
    C5_expand_manifest_path_variables_token_semantics id
      [PathSeg.tok (("runtime.system32").toList),
       PathSeg.lit (("\\foo.dll").toList),
       PathSeg.tok (("bogus.var").toList)] (by decide)⟩

/-- Claim C8: `get_manifest_files` skips exactly the file-declaration
elements lacking the directory attribute or the file-name attribute: the
computed list is the per-element partial map that contributes the expanded,
joined, normalized path of every well-formed element, in order, with no
failure for the manifest as a whole; and on a live instance the accessor
returns exactly that list. -/
theorem C8_get_manifest_files_skips_malformed_elements :
    (∀ (env np : Str → Str) (elems : List FileElem),
      manifest_files_of env np elems = List.filterMap (fileElemPath env np) elems)
    ∧ (∀ (E : ManifestEnv) (fuel : Nat), E.raw ≠ [] → 2 ≤ fuel →
      (get_manifest_files E fuel initMem).map Prod.fst
        = some (List.filterMap (fileElemPath E.expandEnv E.normpath)
            (E.parse (decode_spec E)))) := by
  constructor
  · intro env np elems
    simpa using manifest_files_loop_eq env np elems []
  · intro E fuel hraw hf
    obtain ⟨k, rfl⟩ : ∃ k, fuel = k + 2 := by
      obtain ⟨k, hk⟩ := Nat.exists_eq_add_of_le hf
      exact ⟨k, by omega⟩
    rw [gmf_fresh E k hraw]
    simp only [Option.map_some, manifest_file_list, manifest_files_of]
    simpa using manifest_files_loop_eq E.expandEnv E.normpath (E.parse (decode_spec E)) []

/-- Witness for C8: a malformed element (missing directory attribute) between
two well-formed ones is skipped and the others contribute in order. -/
theorem C8_witness :
    ([1] : Bytes) ≠ [] ∧ 2 ≤ 2
    ∧ (get_manifest_files
        (testEnv [1]
          [ { destinationPath := some (("C:\\d1").toList),
              name := some (("a.dll").toList) },
            { destinationPath := none, name := some (("b.dll").toList) },
            { destinationPath := some (("C:\\d2").toList), name := none },
            { destinationPath := some (("C:\\d3").toList),
              name := some (("c.dll").toList) } ]) 2 initMem).map Prod.fst
      = some (List.filterMap
          (fileElemPath (testEnv [1] []).expandEnv (testEnv [1] []).normpath)
          ((testEnv [1]
            [ { destinationPath := some (("C:\\d1").toList),
                name := some (("a.dll").toList) },
              { destinationPath := none, name := some (("b.dll").toList) },
              { destinationPath := some (("C:\\d2").toList), name := none },
              { destinationPath := some (("C:\\d3").toList),
                name := some (("c.dll").toList) } ]).parse
            (decode_spec (testEnv [1]
              [ { destinationPath := some (("C:\\d1").toList),
                  name := some (("a.dll").toList) },
                { destinationPath := none, name := some (("b.dll").toList) },
                { destinationPath := some (("C:\\d2").toList), name := none },
                { destinationPath := some (("C:\\d3").toList),
                  name := some (("c.dll").toList) } ])))) :=
  ⟨by decide, by decide,
    C8_get_manifest_files_skips_malformed_elements.2
      (testEnv [1]
        [ { destinationPath := some (("C:\\d1").toList),
            name := some (("a.dll").toList) },
          { destinationPath := none, name := some (("b.dll").toList) },
          { destinationPath := some (("C:\\d2").toList), name := none },
          { destinationPath := some (("C:\\d3").toList),
            name := some (("c.dll").toList) } ]) 2 (by decide) (by decide)⟩

/-- Claim C9: `is_file_in_manifest_files` is true exactly when some manifest
file equals the candidate under case-insensitive comparison, and its result
is unchanged when the candidate's letter case is changed. -/
theorem C9_is_file_in_manifest_files_case_insensitive
    (files : List Str) (target : Str) :
    (is_file_in_manifest_files files target = true
      ↔ ∃ f ∈ files, lower f = lower target)
    ∧ (∀ t2 : Str, lower t2 = lower target →
        is_file_in_manifest_files files t2 = is_file_in_manifest_files files target) := by
  constructor
  · induction files with
    | nil => simp [is_file_in_manifest_files]
    | cons f rest ih =>
      by_cases h : lower f = lower target
      · simp [is_file_in_manifest_files, h]
      · simp [is_file_in_manifest_files, h, ih]
  · intro t2 ht
    induction files with
    | nil => rfl
    | cons f rest ih =>
      by_cases h : lower f = lower target
      · simp [is_file_in_manifest_files, h, ht]
      · simp [is_file_in_manifest_files, h, ht, ih]

/-- Witness for C9: changing the candidate's case leaves the result
unchanged on a concrete manifest file list. -/
theorem C9_witness :
    lower (("c:\\windows\\A.DLL").toList) = lower (("C:\\Windows\\a.dll").toList)
    ∧ is_file_in_manifest_files [("C:\\WINDOWS\\a.dll").toList]
        (("c:\\windows\\A.DLL").toList)
      = is_file_in_manifest_files [("C:\\WINDOWS\\a.dll").toList]
        (("C:\\Windows\\a.dll").toList) :=
  ⟨by decide,
    (C9_is_file_in_manifest_files_case_insensitive
      [("C:\\WINDOWS\\a.dll").toList] (("C:\\Windows\\a.dll").toList)).2
      (("c:\\windows\\A.DLL").toList) (by decide)⟩

theorem resolveSource_none (archive : List Component) (dest : Str)
    (h : ∀ c ∈ archive, is_file_in_manifest_files c.manifest_files dest = false) :
    resolveSource archive dest = .error .unresolvableSource := by
  induction archive with
  | nil => rfl
  | cons c rest ih =>
    have hc := h c (List.mem_cons_self c rest)
    simp [resolveSource, hc]
    exact ih (fun c' hm => h c' (List.mem_cons_of_mem _ hm))

theorem resolveSource_error_shape (archive : List Component) (dest : Str)
    (e : RunError) (h : resolveSource archive dest = .error e) :
    e = .unresolvableSource := by
  induction archive with
  | nil =>
    simp [resolveSource] at h
    exact h.symm
  | cons c rest ih =>
    by_cases hc : is_file_in_manifest_files c.manifest_files dest
    · simp [resolveSource, hc] at h
    · simp [resolveSource, hc] at h
      exact ih h

theorem resolve_update_file_error_shape (archive : List Component)
    (uf : UpdateFile) (e : RunError)
    (h : resolve_update_file archive uf = .error e) : e = .unresolvableSource := by
  unfold resolve_update_file at h
  by_cases hs : uf.should_retrieve_oldest
  · rw [if_pos hs] at h
    cases hr : resolveSource archive uf.destination with
    | ok p =>
      rw [hr] at h
      simp at h
    | error e' =>
      rw [hr] at h
      simp at h
      rw [h] at hr
      exact resolveSource_error_shape archive uf.destination e hr
  · rw [if_neg hs] at h
    simp at h

theorem resolveSource_append (dest : Str) (c : Component)
    (post : List Component)
    (hc : is_file_in_manifest_files c.manifest_files dest = true) :
    ∀ pre : List Component,
      (∀ c' ∈ pre, is_file_in_manifest_files c'.manifest_files dest = false) →
      resolveSource (pre ++ c :: post) dest = .ok c.oldest_file_path := by
  intro pre
  induction pre with
  | nil =>
    intro _
    simp [resolveSource, hc]
  | cons c0 pre ih =>
    intro hpre
    have h0 := hpre c0 (List.mem_cons_self c0 pre)
    simp [resolveSource, h0]
    exact ih (fun c' hm => hpre c' (List.mem_cons_of_mem _ hm))

theorem retrieve_unresolvable (archive : List Component) (dest : Str)
    (hno : ∀ c ∈ archive, is_file_in_manifest_files c.manifest_files dest = false) :
    ∀ (ufs : List UpdateFile) (uf : UpdateFile), uf ∈ ufs →
      uf.should_retrieve_oldest = true → uf.destination = dest →
      retrieve_oldest_files_for_update_files archive ufs
        = .error .unresolvableSource := by
  intro ufs
  induction ufs with
  | nil =>
    intro uf hm _ _
    exact absurd hm (List.not_mem_nil uf)
  | cons uf0 rest ih =>
    intro uf hm hs hd
    rcases List.mem_cons.mp hm with h0 | hmem
    · subst h0
      have hres : resolve_update_file archive uf = .error .unresolvableSource := by
        simp [resolve_update_file, hs, hd, resolveSource_none archive dest hno]
      simp [retrieve_oldest_files_for_update_files, hres]
    · cases hres : resolve_update_file archive uf0 with
      | error e =>
        have he := resolve_update_file_error_shape archive uf0 e hres
        subst he
        simp [retrieve_oldest_files_for_update_files, hres]
      | ok uf2 =>
        simp [retrieve_oldest_files_for_update_files, hres, ih uf hmem hs hd]

/-- Claim C3: source resolution returns the archived file path of the first
component, in archive enumeration order, whose manifest contains the
destination path; when no component owns the path, resolution fails with
`UnresolvableSourceError`, and a config flow containing such a request
produces an error and no output document. -/
theorem C3_resolveSource_first_match_or_fatal (archive : List Component)
    (dest : Str) :
    (∀ (pre post : List Component) (c : Component),
        archive = pre ++ c :: post →
        is_file_in_manifest_files c.manifest_files dest = true →
        (∀ c' ∈ pre, is_file_in_manifest_files c'.manifest_files dest = false) →
        resolveSource archive dest = .ok c.oldest_file_path)
    ∧ ((∀ c ∈ archive, is_file_in_manifest_files c.manifest_files dest = false) →
        resolveSource archive dest = .error .unresolvableSource
        ∧ ∀ (fs : Str → Bytes) (ufs : List UpdateFile) (uf : UpdateFile),
            uf ∈ ufs → uf.should_retrieve_oldest = true → uf.destination = dest →
            run_config_flow archive fs ufs = .error .unresolvableSource) := by
  constructor
  · intro pre post c heq hc hpre
    subst heq
    exact resolveSource_append dest c post hc pre hpre
  · intro hno
    refine ⟨resolveSource_none archive dest hno, ?_⟩
    intro fs ufs uf hm hs hd
    simp [run_config_flow, retrieve_unresolvable archive dest hno ufs uf hm hs hd]

/-- Witness for C3: in a two-component archive both owning the destination
(case-insensitively), the first component's path is returned. -/
theorem C3_witness :
    is_file_in_manifest_files [("C:\\W\\a.dll").toList] (("c:\\w\\A.DLL").toList) = true
    ∧ resolveSource
        [ { manifest_files := [("C:\\W\\a.dll").toList],
            oldest_file_path := ("store_v1\\a.dll").toList },
          { manifest_files := [("C:\\W\\a.dll").toList],
            oldest_file_path := ("store_v2\\a.dll").toList } ]
        (("c:\\w\\A.DLL").toList)
      = .ok (("store_v1\\a.dll").toList) :=
  ⟨by decide,
    (C3_resolveSource_first_match_or_fatal
      [ { manifest_files := [("C:\\W\\a.dll").toList],
          oldest_file_path := ("store_v1\\a.dll").toList },
        { manifest_files := [("C:\\W\\a.dll").toList],
          oldest_file_path := ("store_v2\\a.dll").toList } ]
      (("c:\\w\\A.DLL").toList)).1 []
      [ { manifest_files := [("C:\\W\\a.dll").toList],
          oldest_file_path := ("store_v2\\a.dll").toList } ]
      { manifest_files := [("C:\\W\\a.dll").toList],
        oldest_file_path := ("store_v1\\a.dll").toList }
      rfl (by decide) (by decide)⟩

/-- Claim C7: the first declared replacement request whose destination does
not exist on the live filesystem makes `parse_config_xml` abort with the
missing-destination error: no update-file list is returned, and no later
request contributes to any output. -/
theorem C7_parse_config_xml_missing_destination_aborts (ex : Str → Bool)
    (e : ConfigEntry) (post : List ConfigEntry)
    (he : ex e.destination = false) :
    ∀ pre : List ConfigEntry, (∀ e' ∈ pre, ex e'.destination = true) →
      parse_config_xml ex (pre ++ e :: post)
        = .error (.fileNotFound e.destination) := by
  intro pre
  induction pre with
  | nil =>
    intro _
    simp [parse_config_xml, he]
  | cons p pre ih =>
    intro hpre
    have hp := hpre p (List.mem_cons_self p pre)
    have hrec := ih (fun e' hm => hpre e' (List.mem_cons_of_mem _ hm))
    simp [parse_config_xml, hp, hrec]

/-- Witness for C7: a missing destination in the middle of the config aborts
parsing with its path, despite a well-formed later request. -/
theorem C7_witness :
    (fun p => decide (p ≠ ("missing.dll").toList))
        (ConfigEntry.mk (("s2").toList) (("missing.dll").toList)).destination = false
    ∧ (∀ e' ∈ [ConfigEntry.mk (("s1").toList) (("d1.dll").toList)],
        (fun p => decide (p ≠ ("missing.dll").toList)) e'.destination = true)
    ∧ parse_config_xml (fun p => decide (p ≠ ("missing.dll").toList))
        ([ConfigEntry.mk (("s1").toList) (("d1.dll").toList)]
          ++ ConfigEntry.mk (("s2").toList) (("missing.dll").toList)
            :: [ConfigEntry.mk (("s3").toList) (("d3.dll").toList)])
      = .error (.fileNotFound
          (ConfigEntry.mk (("s2").toList) (("missing.dll").toList)).destination) :=
  ⟨by decide, by decide,
    C7_parse_config_xml_missing_destination_aborts
      (fun p => decide (p ≠ ("missing.dll").toList))
      (ConfigEntry.mk (("s2").toList) (("missing.dll").toList))
      [ConfigEntry.mk (("s3").toList) (("d3.dll").toList)] (by decide)
      [ConfigEntry.mk (("s1").toList) (("d1.dll").toList)] (by decide)⟩

/-- Claim C6: every fatal condition aborts the entire run with an error and
no partial output document is written to persistent storage.  This holds for
the source as written, degenerately: `parse_args` defines no `config_file`
dest (first conjunct, decided against the transcribed dest list), so the
attribute read at line 109 raises `AttributeError` on every run — in
particular on every run requesting one of the reserved feature flags
invisible-install, persistence or irreversibility — before the write at line
117 or any other effect, and every run's write log is empty. -/
theorem C6_every_fatal_run_aborts_with_no_output :
    ("config_file").toList ∉ argparse_dests
    ∧ ∀ (args : Args) (ex : Str → Bool) (read_config : Str → List ConfigEntry)
        (archive : List Component) (fs : Str → Bytes),
        main_as_written args ex read_config archive fs
          = ([], some RunError.attributeError) := by
  have hnot : ("config_file").toList ∉ argparse_dests := by decide
  refine ⟨hnot, ?_⟩
  intro args ex read_config archive fs
  simp [main_as_written, hnot]
  decide
